import Mathlib

/-!
Verification model of src/close_round_fixed_address.py, a script that closes a
fixed-size lottery round: it checks that the round is open, orders the ten
participants by arrival time and numbers them, draws a winner from a block
hash, marks the round closed, records two settlement transactions and opens a
successor round bound to one fixed deposit address.

The relational store is modelled as an explicit state (lists of Round,
Participant and Transaction rows) and each Python function becomes a pure
state-passing function.  Python float values are modelled exactly: every
IEEE-754 double is a rational number, and each arithmetic step rounds the
exact rational result to 53 bits (round to nearest, ties to even), which is
what CPython does on the hardware this script targets.  Rationals are encoded
as raw integer fractions (the Frac type) so that every computation reduces
inside the kernel.
-/

namespace CloseRound

/-- Raw fraction: an integer numerator over an integer denominator.  All
fractions built by the model have a positive denominator.  No normalisation is
performed, so value equality is the cross-multiplication relation Frac.equiv
rather than structural equality. -/
structure Frac where
  num : Int
  den : Int
deriving DecidableEq, Repr

/-- Value equality of raw fractions by cross multiplication. -/
def Frac.equiv (a b : Frac) : Prop := a.num * b.den = b.num * a.den

instance : DecidablePred fun p : Frac × Frac => Frac.equiv p.1 p.2 :=
  fun p => inferInstanceAs (Decidable (p.1.num * p.2.den = p.2.num * p.1.den))

instance (a b : Frac) : Decidable (Frac.equiv a b) :=
  inferInstanceAs (Decidable (a.num * b.den = b.num * a.den))

/-- Exact product of two raw fractions. -/
def Frac.mulRaw (a b : Frac) : Frac := ⟨a.num * b.num, a.den * b.den⟩

/-- Exact sum of two raw fractions. -/
def Frac.addRaw (a b : Frac) : Frac := ⟨a.num * b.den + b.num * a.den, a.den * b.den⟩

/-- Floor of a raw fraction with positive denominator, via Euclidean division. -/
def Frac.floor (q : Frac) : Int := q.num.ediv q.den

/-- Round a raw fraction (positive denominator) to the nearest integer,
ties to even: the rounding used both by IEEE-754 binary arithmetic and by
the round builtin of Python. -/
def rnearestEven (q : Frac) : Int :=
  let f := q.floor
  let r2 := 2 * (q.num - f * q.den)
  if r2 < q.den then f
  else if q.den < r2 then f + 1
  else if f % 2 = 0 then f else f + 1

/-- Binary exponent search: for a positive fraction q it returns the integer e
with 2 pow e being at most q, and q below 2 pow (e+1).  Fuel-bounded structural
recursion; the fuel covers the whole double range. -/
def ilog2Aux : Nat → Frac → Int → Int
  | 0, _, e => e
  | fuel + 1, q, e =>
    if q.num < q.den then ilog2Aux fuel ⟨2 * q.num, q.den⟩ (e - 1)
    else if 2 * q.den ≤ q.num then ilog2Aux fuel ⟨q.num, 2 * q.den⟩ (e + 1)
    else e

/-- Binary exponent of a positive fraction. -/
def ilog2 (q : Frac) : Int := ilog2Aux 6000 q 0

/-- Round a positive exact rational to the nearest IEEE-754 double
(53-bit significand, ties to even), returned as an exact raw fraction. -/
def floatRoundPos (q : Frac) : Frac :=
  let e := ilog2 q
  if e ≤ 52 then
    let s : Frac := ⟨q.num * ((2 ^ (52 - e).toNat : Nat) : Int), q.den⟩
    ⟨rnearestEven s, ((2 ^ (52 - e).toNat : Nat) : Int)⟩
  else
    let s : Frac := ⟨q.num, q.den * ((2 ^ (e - 52).toNat : Nat) : Int)⟩
    ⟨rnearestEven s * ((2 ^ (e - 52).toNat : Nat) : Int), 1⟩

/-- Round an exact rational to the value of the nearest IEEE-754 double.
Zero and negative values are handled by sign symmetry.  This models the
rounding CPython applies to every float literal and float operation. -/
def floatRound (q : Frac) : Frac :=
  if q.num = 0 then ⟨0, 1⟩
  else if 0 < q.num then floatRoundPos q
  else
    let p := floatRoundPos ⟨-q.num, q.den⟩
    ⟨-p.num, p.den⟩

/-- Value of a Python float literal: the exact rational written in the source,
rounded to the nearest double. -/
def fl (q : Frac) : Frac := floatRound q

/-- Python float multiplication: exact product, rounded to the nearest double. -/
def fmul (a b : Frac) : Frac := floatRound (a.mulRaw b)

/-- Python float addition: exact sum, rounded to the nearest double. -/
def fadd (a b : Frac) : Frac := floatRound (a.addRaw b)

/-- Python round(x, 8) on a float x: round the exact value of x to the closest
multiple of 10 pow -8 (ties to even), then return the nearest double to that
decimal value. -/
def pyRound8 (x : Frac) : Frac :=
  floatRound ⟨rnearestEven ⟨x.num * 100000000, x.den⟩, 100000000⟩

/-- Fixed deposit address shared by every round (source line 8). -/
def FIXED_DEPOSIT_ADDRESS : String := "bc1qsingleaddress1234567890"

/-- Admin fee address (source line 10). -/
def ADMIN_FEE_ADDRESS : String := "bc1qadminfeeaddress1234567890"

/-- Prize rate 0.99 (source line 13), as the double nearest to 99/100. -/
def PRIZE_RATE : Frac := fl ⟨99, 100⟩

/-- Admin rate 0.01 (source line 14), as the double nearest to 1/100. -/
def ADMIN_RATE : Frac := fl ⟨1, 100⟩

/-- Per-participant amount 0.1 BTC (source line 16). -/
def PARTICIPANT_BTC_AMOUNT : Frac := fl ⟨1, 10⟩

/-- Total pool: 0.1 * 10 computed in float arithmetic (source line 17). -/
def TOTAL_AMOUNT : Frac := fmul PARTICIPANT_BTC_AMOUNT ⟨10, 1⟩

/-- Prize amount round(TOTAL_AMOUNT * PRIZE_RATE, 8) (source line 47). -/
def prize_amount : Frac := pyRound8 (fmul TOTAL_AMOUNT PRIZE_RATE)

/-- Admin fee round(TOTAL_AMOUNT * ADMIN_RATE, 8) (source line 48). -/
def admin_fee : Frac := pyRound8 (fmul TOTAL_AMOUNT ADMIN_RATE)

/-! Model of the Python builtin int(s, 16): optional surrounding whitespace,
optional sign, optional 0x or 0X base marker, then hexadecimal digits with
single underscores allowed between digits (and one directly after the base
marker).  ASCII input is modelled, which covers every block hash. -/

/-- ASCII whitespace stripped by the Python int parser. -/
def isPySpace (c : Char) : Bool :=
  c = ' ' || c = '\t' || c = '\n' || c = '\x0d' || c = '\x0b' || c = '\x0c'

/-- Hexadecimal digit test. -/
def isHexDig (c : Char) : Bool :=
  (('0' ≤ c && c ≤ '9') || ('a' ≤ c && c ≤ 'f') || ('A' ≤ c && c ≤ 'F'))

/-- Value of a hexadecimal digit. -/
def hexVal (c : Char) : Nat :=
  if '0' ≤ c && c ≤ '9' then c.toNat - '0'.toNat
  else if 'a' ≤ c && c ≤ 'f' then c.toNat - 'a'.toNat + 10
  else c.toNat - 'A'.toNat + 10

/-- Accumulate hexadecimal digits after the first one; a single underscore may
stand between two digits, anything else is a parse failure. -/
def hexDigitsAux : List Char → Nat → Option Nat
  | [], acc => some acc
  | c :: cs, acc =>
    if isHexDig c then hexDigitsAux cs (acc * 16 + hexVal c)
    else if c = '_' then
      match cs with
      | c2 :: cs2 =>
        if isHexDig c2 then hexDigitsAux cs2 (acc * 16 + hexVal c2) else none
      | [] => none
    else none

/-- Parse a nonempty run of hexadecimal digits; it must start with a digit. -/
def hexDigits : List Char → Option Nat
  | [] => none
  | c :: cs => if isHexDig c then hexDigitsAux cs (hexVal c) else none

/-- Parse the unsigned part: an optional 0x or 0X marker (which may be
followed by one underscore) and then the digit run. -/
def parseUnsignedHex : List Char → Option Nat
  | '0' :: c :: rest =>
    if c = 'x' || c = 'X' then
      match rest with
      | '_' :: r2 => hexDigits r2
      | _ => hexDigits rest
    else hexDigits ('0' :: c :: rest)
  | l => hexDigits l

/-- Python int(s, 16): strip whitespace, read an optional sign, parse the
unsigned hexadecimal value.  Returns none where Python raises ValueError. -/
def pyIntBase16 (s : String) : Option Int :=
  let cs := ((s.toList.dropWhile isPySpace).reverse.dropWhile isPySpace).reverse
  match cs with
  | '+' :: rest => (parseUnsignedHex rest).map (fun n => (n : Int))
  | '-' :: rest => (parseUnsignedHex rest).map (fun n => -(n : Int))
  | rest => (parseUnsignedHex rest).map (fun n => (n : Int))

/-- Python truthiness of an optional string: None and the empty string are
falsy, every other string is truthy. -/
def pyTruthy (bh : Option String) : Bool :=
  match bh with
  | none => false
  | some s => s != ""

/-- Python exception surfaced by the draw when the hash is not parseable. -/
inductive PyErr where
  | valueError
deriving DecidableEq, Repr

/-- Model of get_winner_index (source lines 34-41): given the block hash (an
optional string) and the participant count, return None when the hash is falsy
or the count is zero, raise ValueError when the hash does not parse as base
16, and otherwise return the parsed integer modulo the count.  The Int.emod
operation agrees with the Python modulo on a positive modulus. -/
def get_winner_index (block_hash : Option String) (num_participants : Nat) :
    Except PyErr (Option Nat) :=
  if pyTruthy block_hash = false ∨ num_participants = 0 then .ok none
  else
    match block_hash with
    | none => .ok none
    | some s =>
      match pyIntBase16 s with
      | none => .error .valueError
      | some H => .ok (some ((H % (num_participants : Int)).toNat))

/-! The relational store.  A Round, Participant or Transaction row carries the
columns the script reads and writes; the store is the triple of row lists plus
the id the engine would hand to the next inserted round.  Timestamps are
abstract naturals supplied by the caller in place of datetime.utcnow(). -/

/-- Round row. -/
structure RoundRec where
  id : Nat
  deposit_address : String
  status : String
  opened_at : Nat
  closed_at : Option Nat
  winner : Option String
deriving DecidableEq, Repr

/-- Participant row. -/
structure ParticipantRec where
  id : Nat
  round_id : Nat
  btc_address : String
  created_at : Nat
  round_index : Option Nat
deriving DecidableEq, Repr

/-- Transaction row. -/
structure TransactionRec where
  txid : Option String
  txType : String
  status : String
  amount : Frac
  address : String
  timestamp : Nat
deriving DecidableEq, Repr

/-- The persisted state. -/
structure DB where
  rounds : List RoundRec
  participants : List ParticipantRec
  transactions : List TransactionRec
  nextRoundId : Nat
deriving DecidableEq, Repr

/-- Arrival-time comparison used by order_by(Participant.created_at). -/
def createdLE (a b : ParticipantRec) : Prop := a.created_at ≤ b.created_at

instance : DecidableRel createdLE :=
  fun a b => inferInstanceAs (Decidable (a.created_at ≤ b.created_at))

/-- Query of source line 104: the participants of the round, ordered by
created_at (a stable sort, matching the deterministic ordering the script
relies on). -/
def loadParticipants (db : DB) (rid : Nat) : List ParticipantRec :=
  List.insertionSort createdLE (db.participants.filter (fun p => p.round_id == rid))

/-- Position of an id in a list of ids. -/
def idIndex : List Nat → Nat → Option Nat
  | [], _ => none
  | x :: xs, i => if x = i then some 0 else (idIndex xs i).map (fun k => k + 1)

/-- Row update performed by the numbering loop of source lines 111-112: a
participant whose id stands at position k among the first ten loaded rows
receives round_index k+1; every other row is untouched. -/
def assignFn (ids : List Nat) (p : ParticipantRec) : ParticipantRec :=
  match idIndex ids p.id with
  | some k => { p with round_index := some (k + 1) }
  | none => p

/-- The committed effect of the numbering loop plus commit (source lines
110-113) on the store. -/
def indexAssignment (db : DB) (rid : Nat) : DB :=
  { db with participants :=
      db.participants.map (assignFn (((loadParticipants db rid).take 10).map (fun p => p.id))) }

/-- Row predicate of the query on source line 98: id matches and status is
open. -/
def isOpenRow (rid : Nat) (r : RoundRec) : Bool :=
  r.id == rid && r.status == "open"

/-- The committed effect of source lines 126-129: set status, closed_at and
winner on the round row. -/
def closeRoundWrite (db : DB) (rid : Nat) (waddr : String) (now : Nat) : DB :=
  { db with rounds := db.rounds.map (fun r =>
      if r.id = rid then { r with status := "closed", closed_at := some now, winner := some waddr } else r) }

/-- Model of record_payout_transactions (source lines 43-70): insert the
pending payout row to the winner and the pending fee row to the admin
address, then commit. -/
def record_payout_transactions (db : DB) (winner_address : String) (now : Nat) : DB :=
  { db with transactions := db.transactions ++
      [ ⟨none, "payout", "pending", prize_amount, winner_address, now⟩,
        ⟨none, "fee", "pending", admin_fee, ADMIN_FEE_ADDRESS, now⟩ ] }

/-- Model of create_next_round (source lines 73-85): insert a fresh open round
bound to the fixed deposit address. -/
def create_next_round (db : DB) (now : Nat) : DB :=
  { db with
      rounds := db.rounds ++ [⟨db.nextRoundId, FIXED_DEPOSIT_ADDRESS, "open", now, none, none⟩],
      nextRoundId := db.nextRoundId + 1 }

/-- Outcome of one invocation of close_round. -/
inductive CloseResult where
  | ok
  | roundNotOpen
  | insufficientParticipants
  | unavailable
  | pyError
deriving DecidableEq, Repr

/-- Model of close_round (source lines 87-145).  The beacon parameter is the
value returned by get_latest_block_hash (None on HTTP or transport failure,
the stripped response body otherwise) and now stands for datetime.utcnow().
The steps follow the script: find the open round, load and count the ordered
participants, number the first ten and commit, stop if the beacon is falsy,
draw the winner, write the closure and commit, insert the settlement rows,
insert the successor round. -/
def close_round (db : DB) (round_id : Nat) (beacon : Option String) (now : Nat) :
    DB × CloseResult :=
  match db.rounds.find? (isOpenRow round_id) with
  | none => (db, .roundNotOpen)
  | some _ =>
    let participants := loadParticipants db round_id
    if participants.length < 10 then (db, .insufficientParticipants)
    else
      let db1 := indexAssignment db round_id
      if pyTruthy beacon = false then (db1, .unavailable)
      else
        match get_winner_index beacon 10 with
        | .error _ => (db1, .pyError)
        | .ok none => (db1, .pyError)
        | .ok (some widx) =>
          match participants.get? widx with
          | none => (db1, .pyError)
          | some wp =>
            let db2 := closeRoundWrite db1 round_id wp.btc_address now
            let db3 := record_payout_transactions db2 wp.btc_address now
            let db4 := create_next_round db3 now
            (db4, .ok)

/-! Interleaving model of two concurrent close_round invocations.  The script
commits four times (after numbering, after the closure write, after the
settlement insert, after the successor insert), so one invocation is four
atomic units against the shared store; everything between two commits of one
session is one unit.  The closure write of lines 126-129 is a plain write of
the row object loaded at the start; it is not a conditional update, so the
unit performs it without re-checking the status. -/

/-- Local state of one in-flight close_round invocation: its program counter
(0 check-and-number, 1 draw-and-close, 2 settle, 3 successor, 9 finished), the
participant list it loaded, the winner address it computed and its outcome. -/
structure AttemptState where
  pc : Nat
  loaded : List ParticipantRec
  winnerAddr : String
  result : Option CloseResult
deriving DecidableEq, Repr

/-- An invocation that has not started yet. -/
def initAttempt : AttemptState := ⟨0, [], "", none⟩

/-- One atomic unit (the work between two commits) of a close_round
invocation, acting on the shared store.  Each branch mirrors the matching
branch of close_round. -/
def stepAttempt (rid : Nat) (beacon : Option String) (now : Nat)
    (db : DB) (a : AttemptState) : DB × AttemptState :=
  match a.pc with
  | 0 =>
    match db.rounds.find? (isOpenRow rid) with
    | none => (db, { a with pc := 9, result := some .roundNotOpen })
    | some _ =>
      let ps := loadParticipants db rid
      if ps.length < 10 then (db, { a with pc := 9, result := some .insufficientParticipants })
      else (indexAssignment db rid, { a with pc := 1, loaded := ps })
  | 1 =>
    if pyTruthy beacon = false then (db, { a with pc := 9, result := some .unavailable })
    else
      match get_winner_index beacon 10 with
      | .error _ => (db, { a with pc := 9, result := some .pyError })
      | .ok none => (db, { a with pc := 9, result := some .pyError })
      | .ok (some widx) =>
        match a.loaded.get? widx with
        | none => (db, { a with pc := 9, result := some .pyError })
        | some wp =>
          (closeRoundWrite db rid wp.btc_address now, { a with pc := 2, winnerAddr := wp.btc_address })
  | 2 => (record_payout_transactions db a.winnerAddr now, { a with pc := 3 })
  | 3 => (create_next_round db now, { a with pc := 9, result := some .ok })
  | _ => (db, a)

/-- Run two invocations A and B of close_round on the same round id under an
explicit schedule: true lets A perform its next atomic unit, false lets B.
Each invocation carries its own beacon value and clock reading. -/
def runSched (rid : Nat) (bA bB : Option String) (nA nB : Nat) :
    List Bool → DB × AttemptState × AttemptState → DB × AttemptState × AttemptState
  | [], s => s
  | c :: rest, (db, a, b) =>
    if c then
      let s2 := stepAttempt rid bA nA db a
      runSched rid bA bB nA nB rest (s2.1, s2.2, b)
    else
      let s2 := stepAttempt rid bB nB db b
      runSched rid bA bB nA nB rest (s2.1, a, s2.2)

/-! Concrete stores used as witnesses: one open round with the fixed deposit
address and participants arriving at distinct times. -/

/-- Participant i of the witness stores, arrived at time i. -/
def exParticipant (i : Nat) : ParticipantRec := ⟨i, 1, "addr" ++ toString i, i, none⟩

/-- Witness store with ten participants in the open round 1. -/
def exDB10 : DB :=
  ⟨[⟨1, FIXED_DEPOSIT_ADDRESS, "open", 0, none, none⟩],
   (List.range 10).map (fun i => exParticipant (i + 1)), [], 2⟩

/-- Witness store with nine participants in the open round 1. -/
def exDB9 : DB :=
  ⟨[⟨1, FIXED_DEPOSIT_ADDRESS, "open", 0, none, none⟩],
   (List.range 9).map (fun i => exParticipant (i + 1)), [], 2⟩

/-- The empty string does not parse as base 16. -/
theorem pyIntBase16_empty : pyIntBase16 "" = none := rfl

/-- C1: for every participant count n above zero and every string h whose
base-16 parse succeeds with value H, get_winner_index returns H modulo n,
that value is in the interval from 0 to n exclusive, and the function is a
pure deterministic function of its two arguments. -/
theorem c1_selectWinnerIndex_mod_range (h : String) (n : Nat) (H : Int)
    (hn : 0 < n) (hp : pyIntBase16 h = some H) :
    get_winner_index (some h) n = .ok (some ((H % (n : Int)).toNat)) ∧
    (H % (n : Int)).toNat < n ∧
    get_winner_index (some h) n = get_winner_index (some h) n := by
  have hne : h ≠ "" := by
    intro he
    rw [he, pyIntBase16_empty] at hp
    cases hp
  have hcond : ¬(pyTruthy (some h) = false ∨ n = 0) := by
    simp [pyTruthy, hne]
    omega
  refine ⟨?_, ?_, rfl⟩
  · simp only [get_winner_index, if_neg hcond, hp]
  · have hnz : (n : Int) ≠ 0 := by exact_mod_cast Nat.pos_iff_ne_zero.mp hn
    have h1 : 0 ≤ H % (n : Int) := Int.emod_nonneg H hnz
    have h2 : H % (n : Int) < (n : Int) := Int.emod_lt_of_pos H (by exact_mod_cast hn)
    omega

/-- Closed instance of the C1 theorem at the hash 1a and ten participants:
the parsed value 26 modulo 10 gives index 6, the seventh participant in
arrival order. -/
theorem c1_selectWinnerIndex_mod_range_witness :
    0 < 10 ∧ pyIntBase16 "1a" = some 26 ∧
    get_winner_index (some "1a") 10 = .ok (some (((26 : Int) % (10 : Int)).toNat)) ∧
    (((26 : Int) % (10 : Int)).toNat < 10) := by
  refine ⟨by decide, by decide, ?_⟩
  have h := c1_selectWinnerIndex_mod_range "1a" 10 26 (by decide) (by decide)
  exact ⟨h.1, h.2.1⟩

/-- Interleaved pair of closure attempts used to exhibit the race on the
closure commit. -/
def c2run : DB × AttemptState × AttemptState :=
  runSched 1 (some "1a") (some "1a") 5 6
    [true, false, true, false, true, false, true, false]
    (exDB10, initAttempt, initAttempt)

/-- C2: counterexample run.  Two interleaved closure attempts on round 1 of
the ten-participant store both pass the open check before either closes, so
both perform the closure write and both report success; neither observes
RoundNotOpen, the settlement rows are inserted twice (four transactions) and
two successor rounds are created.  The script has no conditional update
guarding the status flip, so the at-most-once guarantee claimed by the spec
does not hold. -/
theorem c2_concurrent_double_close :
    c2run.2.1.result = some CloseResult.ok ∧
    c2run.2.2.result = some CloseResult.ok ∧
    c2run.2.1.result ≠ some CloseResult.roundNotOpen ∧
    c2run.2.2.result ≠ some CloseResult.roundNotOpen ∧
    c2run.1.transactions.length = 4 ∧
    c2run.1.rounds.length = 3 := by decide

/-- C3: a closure attempt on an open round with fewer than ten participants
returns InsufficientParticipants and leaves the store exactly as it was: the
round stays open, no round_index is written, no transaction is inserted and
no successor round is created. -/
theorem c3_insufficient_no_mutation (db : DB) (rid : Nat) (beacon : Option String)
    (now : Nat) (r0 : RoundRec)
    (h1 : db.rounds.find? (isOpenRow rid) = some r0)
    (h2 : (loadParticipants db rid).length < 10) :
    close_round db rid beacon now = (db, .insufficientParticipants) := by
  simp only [close_round, h1, if_pos h2]

/-- Closed instance of the C3 theorem on the nine-participant store. -/
theorem c3_insufficient_no_mutation_witness :
    exDB9.rounds.find? (isOpenRow 1) = some ⟨1, FIXED_DEPOSIT_ADDRESS, "open", 0, none, none⟩ ∧
    (loadParticipants exDB9 1).length < 10 ∧
    close_round exDB9 1 (some "1a") 7 = (exDB9, .insufficientParticipants) :=
  ⟨by decide, by decide,
    c3_insufficient_no_mutation exDB9 1 (some "1a") 7
      ⟨1, FIXED_DEPOSIT_ADDRESS, "open", 0, none, none⟩ (by decide) (by decide)⟩

/-- C5: the total pool 0.1 * 10 evaluates exactly to one unit; the recorded
prize is the double nearest 0.99 and the recorded fee the double nearest
0.01, whose roundings to eight decimal places are exactly 0.99000000 and
0.01000000; and the float sum of the two recorded amounts equals the total
pool exactly, so a reconciliation check of prize plus fee against the pool
passes with no rounding leak. -/
theorem c5_settlement_amounts :
    Frac.equiv TOTAL_AMOUNT ⟨1, 1⟩ ∧
    prize_amount = fl ⟨99, 100⟩ ∧
    admin_fee = fl ⟨1, 100⟩ ∧
    rnearestEven ⟨prize_amount.num * 100000000, prize_amount.den⟩ = 99000000 ∧
    rnearestEven ⟨admin_fee.num * 100000000, admin_fee.den⟩ = 1000000 ∧
    Frac.equiv (fadd prize_amount admin_fee) TOTAL_AMOUNT := by decide

/-- C6: the winner selection never returns an index when the hash string is
empty or fails to parse as base 16 (the script yields None for the empty
string and raises ValueError for an unparseable one), and never returns an
index when the participant count is zero (it yields None). -/
theorem c6_winner_selection_failures (h : String) (n : Nat) :
    ((h = "" ∨ pyIntBase16 h = none) → ∀ i : Nat, get_winner_index (some h) n ≠ .ok (some i)) ∧
    (n = 0 → ∀ i : Nat, get_winner_index (some h) n ≠ .ok (some i)) := by
  constructor
  · rintro (he | hp) i
    · subst he
      simp [get_winner_index, pyTruthy]
    · by_cases he : h = ""
      · subst he
        simp [get_winner_index, pyTruthy]
      · by_cases hn : n = 0
        · simp [get_winner_index, hn]
        · have hcond : ¬(pyTruthy (some h) = false ∨ n = 0) := by
            simp [pyTruthy, he]
            omega
          simp [get_winner_index, if_neg hcond, hp]
  · intro hn i
    simp [get_winner_index, hn]

/-- Closed instance of the C6 theorem: the unparseable hash zz and the empty
participant set both fail to produce a winner index. -/
theorem c6_winner_selection_failures_witness :
    pyIntBase16 "zz" = none ∧
    get_winner_index (some "zz") 10 ≠ .ok (some 3) ∧
    get_winner_index (some "aa") 0 ≠ .ok (some 0) :=
  ⟨by decide,
    (c6_winner_selection_failures "zz" 10).1 (Or.inr (by decide)) 3,
    (c6_winner_selection_failures "aa" 0).2 (by decide) 0⟩

/-- C7: when the randomness fetch fails (the beacon is None), the closure
attempt stops with the unavailability error; the store it leaves behind is
the numbering commit alone, so the round rows are untouched (the round is
still open with no winner and no closing time), no transaction is inserted,
no successor round is created, and the round_index values written by the
numbering step are retained for a later retry. -/
theorem c7_unavailable_retry_safe (db : DB) (rid : Nat) (now : Nat) (r0 : RoundRec)
    (h1 : db.rounds.find? (isOpenRow rid) = some r0)
    (h2 : ¬(loadParticipants db rid).length < 10) :
    close_round db rid none now = (indexAssignment db rid, .unavailable) ∧
    (indexAssignment db rid).rounds = db.rounds ∧
    (indexAssignment db rid).transactions = db.transactions ∧
    (indexAssignment db rid).nextRoundId = db.nextRoundId := by
  refine ⟨?_, rfl, rfl, rfl⟩
  simp only [close_round, h1, if_neg h2]
  rfl

/-- Closed instance of the C7 theorem on the ten-participant store. -/
theorem c7_unavailable_retry_safe_witness :
    exDB10.rounds.find? (isOpenRow 1) = some ⟨1, FIXED_DEPOSIT_ADDRESS, "open", 0, none, none⟩ ∧
    ¬(loadParticipants exDB10 1).length < 10 ∧
    close_round exDB10 1 none 7 = (indexAssignment exDB10 1, .unavailable) ∧
    (indexAssignment exDB10 1).rounds = exDB10.rounds :=
  ⟨by decide, by decide,
    (c7_unavailable_retry_safe exDB10 1 7
      ⟨1, FIXED_DEPOSIT_ADDRESS, "open", 0, none, none⟩ (by decide) (by decide)).1,
    (c7_unavailable_retry_safe exDB10 1 7
      ⟨1, FIXED_DEPOSIT_ADDRESS, "open", 0, none, none⟩ (by decide) (by decide)).2.1⟩

/-- The two store updates the script performs after the closure commit, in
program order: insert the settlement rows, insert the successor round.  A
failure inside this tail stops it between steps. -/
def postClosureSteps (waddr : String) (now : Nat) : List (DB → DB) :=
  [fun db => record_payout_transactions db waddr now,
   fun db => create_next_round db now]

/-- Apply a list of store updates in order. -/
def runUpdates (fs : List (DB → DB)) (db : DB) : DB :=
  fs.foldl (fun d f => f d) db

/-- C8: once the closure write has committed, the round row found by id is
closed with the recorded winner and closing time, and running any prefix of
the post-commit tail (zero, one or both of the settlement insert and the
successor insert, so in particular stopping at any failure point) leaves that
row exactly as the commit wrote it: nothing after the commit reopens the
round, clears the winner or rolls the closure back. -/
theorem c8_closure_commit_irrevocable (db : DB) (rid : Nat) (waddr : String)
    (now now2 : Nat) (k : Nat) (hk : k ≤ 2)
    (hmem : (((closeRoundWrite db rid waddr now).rounds.find? (fun r => r.id == rid))).isSome) :
    (runUpdates ((postClosureSteps waddr now2).take k)
        (closeRoundWrite db rid waddr now)).rounds.find? (fun r => r.id == rid) =
      (closeRoundWrite db rid waddr now).rounds.find? (fun r => r.id == rid) ∧
    ∀ r : RoundRec,
      (closeRoundWrite db rid waddr now).rounds.find? (fun r => r.id == rid) = some r →
        r.status = "closed" ∧ r.winner = some waddr ∧ r.closed_at = some now := by
  constructor
  · match k, hk with
    | 0, _ => rfl
    | 1, _ => rfl
    | 2, _ =>
      simp only [postClosureSteps, runUpdates, List.take, List.foldl,
        record_payout_transactions, create_next_round]
      rw [List.find?_append]
      obtain ⟨r, hr⟩ := Option.isSome_iff_exists.mp hmem
      rw [hr]
      rfl
  · intro r hr
    have hpred := List.find?_some hr
    have hmem2 := List.mem_of_find?_eq_some hr
    simp only [closeRoundWrite, List.mem_map] at hmem2
    obtain ⟨orig, _, horig⟩ := hmem2
    by_cases hid : orig.id = rid
    · rw [if_pos hid] at horig
      rw [← horig]
      exact ⟨rfl, rfl, rfl⟩
    · rw [if_neg hid] at horig
      rw [← horig] at hpred
      exact absurd (beq_iff_eq.mp hpred) hid

/-- Closed instance of the C8 theorem: on the ten-participant store the full
post-commit tail (both steps) leaves the closed round row intact. -/
theorem c8_closure_commit_irrevocable_witness :
    (2 : Nat) ≤ 2 ∧
    (((closeRoundWrite exDB10 1 "addr7" 7).rounds.find? (fun r => r.id == 1))).isSome = true ∧
    (runUpdates ((postClosureSteps "addr7" 7).take 2)
        (closeRoundWrite exDB10 1 "addr7" 7)).rounds.find? (fun r => r.id == 1) =
      (closeRoundWrite exDB10 1 "addr7" 7).rounds.find? (fun r => r.id == 1) :=
  ⟨by decide, by decide,
    (c8_closure_commit_irrevocable exDB10 1 "addr7" 7 7 2 (by decide) (by decide)).1⟩

/-- C9: every successful closure ends with the successor round as the last
round row of the store: a fresh round that is open, stamped with the closing
clock reading as opened_at, and bound to the one fixed shared deposit address
rather than to any per-round generated address. -/
theorem c9_successor_round_fixed_address (db : DB) (rid : Nat) (beacon : Option String)
    (now : Nat) (h : (close_round db rid beacon now).2 = .ok) :
    (close_round db rid beacon now).1.rounds.getLast? =
      some ⟨db.nextRoundId, FIXED_DEPOSIT_ADDRESS, "open", now, none, none⟩ := by
  simp only [close_round] at h ⊢
  split at h
  · cases h
  · split at h
    · cases h
    · split at h
      · cases h
      · split at h
        · cases h
        · cases h
        · split at h
          · cases h
          · rename_i x2 val heq2 hlen hbt x1 widx heq1 x wp heq
            rw [if_neg hlen, if_neg hbt]
            simp [create_next_round, record_payout_transactions, closeRoundWrite,
              indexAssignment]

/-- Closed instance of the C9 theorem on a successful closure of the
ten-participant store. -/
theorem c9_successor_round_fixed_address_witness :
    (close_round exDB10 1 (some "1a") 7).2 = .ok ∧
    (close_round exDB10 1 (some "1a") 7).1.rounds.getLast? =
      some ⟨exDB10.nextRoundId, FIXED_DEPOSIT_ADDRESS, "open", 7, none, none⟩ :=
  ⟨by decide, c9_successor_round_fixed_address exDB10 1 (some "1a") 7 (by decide)⟩

/-- C10: on every successful closure, whatever the store contents, the two
settlement rows appended to the transaction table are a pending payout and a
pending fee whose amounts are the global constants round(TOTAL_AMOUNT * 0.99,
8) and round(TOTAL_AMOUNT * 0.01, 8); the pool is the hardcoded 0.1 * 10 = 1
BTC, so the amounts never depend on what any participant actually deposited
(the model does not even read a deposit column; none exists in the script). -/
theorem c10_constant_settlement_amounts (db : DB) (rid : Nat) (beacon : Option String)
    (now : Nat) (h : (close_round db rid beacon now).2 = .ok) :
    ((close_round db rid beacon now).1.transactions.map
        (fun t => (t.txid, t.txType, t.status, t.amount, t.timestamp))) =
      (db.transactions.map (fun t => (t.txid, t.txType, t.status, t.amount, t.timestamp))) ++
        [(none, "payout", "pending", prize_amount, now),
         (none, "fee", "pending", admin_fee, now)] ∧
    prize_amount = fl ⟨99, 100⟩ ∧
    admin_fee = fl ⟨1, 100⟩ ∧
    Frac.equiv TOTAL_AMOUNT ⟨1, 1⟩ := by
  refine ⟨?_, by decide, by decide, by decide⟩
  simp only [close_round] at h ⊢
  split at h
  · cases h
  · split at h
    · cases h
    · split at h
      · cases h
      · split at h
        · cases h
        · cases h
        · split at h
          · cases h
          · rename_i x2 val heq2 hlen hbt x1 widx heq1 x wp heq
            rw [if_neg hlen, if_neg hbt]
            simp [create_next_round, record_payout_transactions, closeRoundWrite,
              indexAssignment]

/-- Closed instance of the C10 theorem on a successful closure of the
ten-participant store. -/
theorem c10_constant_settlement_amounts_witness :
    (close_round exDB10 1 (some "1a") 7).2 = .ok ∧
    ((close_round exDB10 1 (some "1a") 7).1.transactions.map
        (fun t => (t.txid, t.txType, t.status, t.amount, t.timestamp))) =
      (exDB10.transactions.map (fun t => (t.txid, t.txType, t.status, t.amount, t.timestamp))) ++
        [(none, "payout", "pending", prize_amount, 7),
         (none, "fee", "pending", admin_fee, 7)] :=
  ⟨by decide, (c10_constant_settlement_amounts exDB10 1 (some "1a") 7 (by decide)).1⟩

/-! Machinery for the numbering claim: the index update touches only the
round_index column, so it commutes with the round filter and with the stable
sort by created_at, and the position of a row among the first ten loaded rows
is its position in arrival order. -/

/-- The index update keeps the participant id. -/
theorem assignFn_id (ids : List Nat) (p : ParticipantRec) : (assignFn ids p).id = p.id := by
  unfold assignFn
  cases idIndex ids p.id <;> rfl

/-- The index update keeps the owning round. -/
theorem assignFn_round_id (ids : List Nat) (p : ParticipantRec) :
    (assignFn ids p).round_id = p.round_id := by
  unfold assignFn
  cases idIndex ids p.id <;> rfl

/-- The index update keeps the arrival time. -/
theorem assignFn_created_at (ids : List Nat) (p : ParticipantRec) :
    (assignFn ids p).created_at = p.created_at := by
  unfold assignFn
  cases idIndex ids p.id <;> rfl

/-- The arrival-time comparison does not see the index update. -/
theorem createdLE_assignFn (ids : List Nat) (a b : ParticipantRec) :
    createdLE (assignFn ids a) (assignFn ids b) ↔ createdLE a b := by
  simp [createdLE, assignFn_created_at]

/-- The round filter commutes with the index update map. -/
theorem filter_map_assignFn (ids : List Nat) (rid : Nat) (l : List ParticipantRec) :
    (l.map (assignFn ids)).filter (fun p => p.round_id == rid) =
      (l.filter (fun p => p.round_id == rid)).map (assignFn ids) := by
  rw [List.filter_map]
  congr 1
  exact List.filter_congr (fun p _ => by rw [Function.comp_apply, assignFn_round_id])

/-- Ordered insertion commutes with the index update map. -/
theorem orderedInsert_map_assignFn (ids : List Nat) (a : ParticipantRec)
    (l : List ParticipantRec) :
    (l.map (assignFn ids)).orderedInsert createdLE (assignFn ids a) =
      (l.orderedInsert createdLE a).map (assignFn ids) := by
  induction l with
  | nil => rfl
  | cons b l ih =>
    simp only [List.map_cons, List.orderedInsert]
    by_cases hc : createdLE a b
    · rw [if_pos ((createdLE_assignFn ids a b).mpr hc), if_pos hc]
      simp
    · rw [if_neg (fun hh => hc ((createdLE_assignFn ids a b).mp hh)), if_neg hc]
      simp [ih]

/-- The stable sort by created_at commutes with the index update map. -/
theorem insertionSort_map_assignFn (ids : List Nat) (l : List ParticipantRec) :
    List.insertionSort createdLE (l.map (assignFn ids)) =
      (List.insertionSort createdLE l).map (assignFn ids) := by
  induction l with
  | nil => rfl
  | cons a l ih =>
    simp only [List.map_cons, List.insertionSort, ih, orderedInsert_map_assignFn]

/-- Reloading the participants of the round after the numbering commit gives
the originally loaded rows, each passed through the index update. -/
theorem loadParticipants_indexAssignment (db : DB) (rid : Nat) :
    loadParticipants (indexAssignment db rid) rid =
      (loadParticipants db rid).map
        (assignFn (((loadParticipants db rid).take 10).map (fun p => p.id))) := by
  conv_lhs => rw [loadParticipants, indexAssignment]
  rw [filter_map_assignFn, insertionSort_map_assignFn]
  rfl

/-- The ids of the first ten rows in arrival order are unchanged by the
numbering commit, so a re-run numbers the same rows. -/
theorem ids_stable (db : DB) (rid : Nat) :
    ((loadParticipants (indexAssignment db rid) rid).take 10).map (fun p => p.id) =
      ((loadParticipants db rid).take 10).map (fun p => p.id) := by
  rw [loadParticipants_indexAssignment, ← List.map_take, List.map_map]
  exact List.map_congr_left (fun p _ => assignFn_id _ p)

/-- Applying the index update twice with the same id list is the same as
applying it once. -/
theorem assignFn_assignFn (ids : List Nat) (p : ParticipantRec) :
    assignFn ids (assignFn ids p) = assignFn ids p := by
  unfold assignFn
  cases h : idIndex ids p.id <;> simp [h]

/-- Unfolding of the index update when the id is among the first ten. -/
theorem assignFn_eq_some (ids : List Nat) (p : ParticipantRec) (k : Nat)
    (h : idIndex ids p.id = some k) :
    assignFn ids p = { p with round_index := some (k + 1) } := by
  unfold assignFn
  rw [h]

/-- Unfolding of the index update when the id is not among the first ten. -/
theorem assignFn_eq_none (ids : List Nat) (p : ParticipantRec)
    (h : idIndex ids p.id = none) : assignFn ids p = p := by
  unfold assignFn
  rw [h]

/-- A store on which the index update is the identity is a fixed point of the
numbering step. -/
theorem indexAssignment_eq_self (db2 : DB) (rid : Nat)
    (h : db2.participants.map
        (assignFn (((loadParticipants db2 rid).take 10).map (fun p => p.id))) =
      db2.participants) :
    indexAssignment db2 rid = db2 := by
  unfold indexAssignment
  rw [h]

/-- Position of the k-th entry of a duplicate-free list inside its first n
entries: k when k is below n, absent otherwise. -/
theorem idIndex_take (L : List Nat) (hnd : L.Nodup) (n k : Nat) (hk : k < L.length) :
    idIndex (L.take n) (L.get ⟨k, hk⟩) = if k < n then some k else none := by
  induction L generalizing n k with
  | nil => cases hk
  | cons x xs ih =>
    cases n with
    | zero => simp [idIndex]
    | succ n =>
      cases k with
      | zero => simp [List.take_succ_cons, idIndex]
      | succ k =>
        have hx : x ∉ xs := (List.nodup_cons.mp hnd).1
        have hnd2 : xs.Nodup := (List.nodup_cons.mp hnd).2
        have hk2 : k < xs.length := Nat.lt_of_succ_lt_succ hk
        have hne : x ≠ xs.get ⟨k, hk2⟩ := fun he => hx (he ▸ List.get_mem xs k hk2)
        rw [List.take_succ_cons, List.get_cons_succ, idIndex, if_neg hne, ih hnd2 n k hk2]
        by_cases hlt : k < n
        · rw [if_pos hlt, if_pos (Nat.succ_lt_succ hlt)]
          rfl
        · rw [if_neg hlt, if_neg (fun hh => hlt (Nat.lt_of_succ_lt_succ hh))]
          rfl

/-- C4: on a round whose participants have pairwise distinct ids, the
numbering step writes round_index k+1 to exactly the row standing at position
k in arrival order for k below ten, leaves every later row untouched, and is
idempotent: running the numbering step again on the already numbered store
changes nothing, because the indices derive only from the arrival order,
which the first run did not disturb. -/
theorem c4_indices_arrival_order_idempotent (db : DB) (rid : Nat)
    (hnd : ((loadParticipants db rid).map (fun p => p.id)).Nodup) :
    (∀ k, (hk : k < (loadParticipants db rid).length) → k < 10 →
        (loadParticipants (indexAssignment db rid) rid).get? k =
          some { (loadParticipants db rid).get ⟨k, hk⟩ with round_index := some (k + 1) }) ∧
    (∀ k, (hk : k < (loadParticipants db rid).length) → 10 ≤ k →
        (loadParticipants (indexAssignment db rid) rid).get? k =
          some ((loadParticipants db rid).get ⟨k, hk⟩)) ∧
    indexAssignment (indexAssignment db rid) rid = indexAssignment db rid := by
  have hidx : ∀ k, (hk : k < (loadParticipants db rid).length) →
      idIndex (((loadParticipants db rid).take 10).map (fun p => p.id))
          ((loadParticipants db rid).get ⟨k, hk⟩).id =
        if k < 10 then some k else none := by
    intro k hk
    have hlen : k < ((loadParticipants db rid).map (fun p => p.id)).length := by
      simpa using hk
    have hget : ((loadParticipants db rid).get ⟨k, hk⟩).id =
        ((loadParticipants db rid).map (fun p => p.id)).get ⟨k, hlen⟩ := by
      rw [List.get_map]
    rw [List.map_take, hget]
    exact idIndex_take _ hnd 10 k hlen
  refine ⟨?_, ?_, ?_⟩
  · intro k hk hk10
    have h2 := hidx k hk
    rw [if_pos hk10] at h2
    rw [loadParticipants_indexAssignment, List.get?_map, List.get?_eq_get hk,
      Option.map_some', assignFn_eq_some _ _ _ h2]
  · intro k hk hk10
    have h2 := hidx k hk
    rw [if_neg (Nat.not_lt.mpr hk10)] at h2
    rw [loadParticipants_indexAssignment, List.get?_map, List.get?_eq_get hk,
      Option.map_some', assignFn_eq_none _ _ h2]
  · apply indexAssignment_eq_self
    rw [ids_stable]
    have hps : (indexAssignment db rid).participants =
        db.participants.map
          (assignFn (((loadParticipants db rid).take 10).map (fun p => p.id))) := rfl
    rw [hps, List.map_map]
    exact List.map_congr_left (fun p _ => assignFn_assignFn _ p)

/-- Closed instance of the C4 theorem on the ten-participant store: the ids
are distinct and re-running the numbering step is a no-op. -/
theorem c4_indices_arrival_order_idempotent_witness :
    ((loadParticipants exDB10 1).map (fun p => p.id)).Nodup ∧
    indexAssignment (indexAssignment exDB10 1) 1 = indexAssignment exDB10 1 :=
  ⟨by decide, (c4_indices_arrival_order_idempotent exDB10 1 (by decide)).2.2⟩

end CloseRound
